import Mathlib

/-
Verification of the retrieval engine of the rag_demo repository.

The definitions below are a shallow embedding of the Python sources:
  * src/backend/cleaner.py   (chunk_text)
  * src/backend/vectorize.py (VectorDB.add_documents, VectorDB.query)
  * src/cli/query_cli.py     (display_results similarity filter)
  * app.py                   (query_rag similarity filter)
Text is modelled as List Char, Python floats as rationals, and the
unbounded while-loop of chunk_text as a fuel-indexed recursion that
returns none when the fuel runs out.
-/

/-- Python str.strip() default whitespace characters (ASCII subset). -/
def isPySpace (c : Char) : Bool :=
  c = ' ' || c = '\t' || c = '\n' || c = '\r' || c = '\x0b' || c = '\x0c'

/-- Python str.strip(): remove leading and trailing whitespace. -/
def pyStrip (l : List Char) : List Char :=
  ((l.dropWhile isPySpace).reverse.dropWhile isPySpace).reverse

/-- Python slice text[s:e] for 0 <= s, e (end clamped to the length). -/
def pySlice (text : List Char) (s e : Nat) : List Char :=
  (text.drop s).take (e - s)

/-- Python str.rfind(pat, s, e): highest index p with s <= p,
p + len(pat) <= min(e, len(text)) and pat occurring at p; -1 if none. -/
def pyRfind (text pat : List Char) (s e : Nat) : Int :=
  let eBound := min e text.length
  let good := (List.range (eBound + 1)).filter fun p =>
    decide (s ≤ p) && decide (p + pat.length ≤ eBound) && pat.isPrefixOf (text.drop p)
  match good.getLast? with
  | some p => (p : Int)
  | none => -1

/-- cleaner.py lines 108-126: the end of the chunk starting at start:
start + chunk_size, moved back to the last sentence boundary (". ", "! ",
"? ") or, failing that, the last space strictly after start, provided the
window does not already reach the end of the text. -/
def chunkEnd (text : List Char) (chunk_size start : Nat) : Nat :=
  let e := start + chunk_size
  if e < text.length then
    let sentence_end := max (max (pyRfind text ['.', ' '] start e)
                                 (pyRfind text ['!', ' '] start e))
                            (pyRfind text ['?', ' '] start e)
    if (start : Int) < sentence_end then (sentence_end + 1).toNat
    else
      let space := pyRfind text [' '] start e
      if (start : Int) < space then space.toNat else e
  else e

/-- cleaner.py lines 131-135: start = end - overlap, forced to end when
that is <= 0 (Python int subtraction; end - overlap <= 0 iff end <= overlap). -/
def nextStart (overlap e : Nat) : Nat :=
  if e ≤ overlap then e else e - overlap

/-- cleaner.py lines 107-137: the while-loop of chunk_text, with explicit
fuel; none models non-termination within the given fuel. -/
def chunkLoop (text : List Char) (chunk_size overlap : Nat) :
    Nat → Nat → List (List Char) → Option (List (List Char))
  | 0, _, _ => none
  | fuel + 1, start, chunks =>
    if start < text.length then
      chunkLoop text chunk_size overlap fuel
        (nextStart overlap (chunkEnd text chunk_size start))
        (chunks ++ [pyStrip (pySlice text start (chunkEnd text chunk_size start))])
    else some chunks

/-- cleaner.py chunk_text: single-chunk fast path, else the loop. -/
def chunk_text (text : List Char) (chunk_size overlap : Nat) (fuel : Nat) :
    Option (List (List Char)) :=
  if text.length ≤ chunk_size then some [text]
  else chunkLoop text chunk_size overlap fuel 0 []

/-- config.py: CHUNK_SIZE = 1000. -/
def CHUNK_SIZE : Nat := 1000

/-- config.py: CHUNK_OVERLAP = 200. -/
def CHUNK_OVERLAP : Nat := 200

/-- query_cli.py line 39: similarity score shown by the CLI. -/
def cliSimilarity (distance : ℚ) : ℚ :=
  max 0 (100 * (1 - distance / 2))

/-- app.py line 89: similarity score computed by the web UI. -/
def appSimilarity (distance : ℚ) : ℚ :=
  max 0 (100 * (1 - distance / 2))

/-- vectorize.py add_documents metadata: filename, filepath, chunk_index,
total_chunks. -/
structure ChunkMeta where
  filename : String
  filepath : String
  chunk_index : Nat
  total_chunks : Nat
deriving DecidableEq

/-- One row of a vector-index query result: raw text, metadata and cosine
distance, as zipped in query_cli.py lines 36 and app.py lines 88. -/
structure QueryRow where
  text : List Char
  meta : ChunkMeta
  distance : ℚ
deriving DecidableEq

/-- query_cli.py lines 35-42: keep rows whose similarity is at least
min_similarity, as (doc, metadata, similarity) triples, in input order. -/
def display_results_filter : List QueryRow → ℚ → List (List Char × ChunkMeta × ℚ)
  | [], _ => []
  | r :: rest, min_similarity =>
    let similarity := cliSimilarity r.distance
    if min_similarity ≤ similarity then
      (r.text, r.meta, similarity) :: display_results_filter rest min_similarity
    else
      display_results_filter rest min_similarity

/-- app.py lines 84-93: the same threshold filter, producing the three
parallel lists filtered_chunks, filtered_metas, filtered_sims. -/
def query_rag_filter : List QueryRow → ℚ → List (List Char) × List ChunkMeta × List ℚ
  | [], _ => ([], [], [])
  | r :: rest, min_similarity =>
    let similarity := appSimilarity r.distance
    let tail3 := query_rag_filter rest min_similarity
    if min_similarity ≤ similarity then
      (r.text :: tail3.1, r.meta :: tail3.2.1, similarity :: tail3.2.2)
    else
      tail3

/-- Python str.lower(), character by character. -/
def lowerChars (l : List Char) : List Char :=
  l.map Char.toLower

/-- Python substring test needle in hay, via occurrence at some position. -/
def containsSub (hay needle : List Char) : Bool :=
  (List.range (hay.length + 1)).any fun p => needle.isPrefixOf (hay.drop p)

/-- Python truthiness of the keyword_filter argument (None or a string):
None and the empty string are falsy. -/
def truthyKw : Option (List Char) → Bool
  | none => false
  | some k => !k.isEmpty

/-- vectorize.py line 107: the candidate count requested from the index:
n_results * 3 when keyword_filter is truthy, else n_results. -/
def requestedCandidates (n_results : Nat) (keyword_filter : Option (List Char)) : Nat :=
  if truthyKw keyword_filter then n_results * 3 else n_results

/-- vectorize.py lines 118-127: scan candidates in rank order, append the
ones whose lowercased text contains the lowercased keyword, and break as
soon as n_results matches are collected. -/
def kwFilterLoop (kwLower : List Char) (n_results : Nat) (acc : List QueryRow) :
    List QueryRow → List QueryRow
  | [] => acc
  | r :: rest =>
    if containsSub (lowerChars r.text) kwLower then
      if n_results ≤ acc.length + 1 then acc ++ [r]
      else kwFilterLoop kwLower n_results (acc ++ [r]) rest
    else kwFilterLoop kwLower n_results acc rest

/-- vectorize.py VectorDB.query lines 105-135: the index collaborator is a
function from a candidate count to a ranked row list; the engine requests
requestedCandidates rows and post-filters them by keyword when the filter
is truthy and the candidate list is non-empty. -/
def VectorDB_query (index : Nat → List QueryRow) (n_results : Nat)
    (keyword_filter : Option (List Char)) : List QueryRow :=
  let results := index (requestedCandidates n_results keyword_filter)
  if truthyKw keyword_filter && !results.isEmpty then
    match keyword_filter with
    | none => results
    | some k => kwFilterLoop (lowerChars k) n_results [] results
  else results

/-- A document as consumed by add_documents: the Python dict access chain
doc.get("cleaned_markdown", doc.get("markdown", doc.get("content", "")))
and doc.get("filename", "unknown"), doc.get("filepath", ""). -/
structure PyDoc where
  cleaned_markdown : Option (List Char)
  markdown : Option (List Char)
  content : Option (List Char)
  filename : Option String
  filepath : Option String

/-- vectorize.py line 59: content fallback chain. -/
def docText (d : PyDoc) : List Char :=
  d.cleaned_markdown.getD (d.markdown.getD (d.content.getD []))

/-- vectorize.py line 60: filename fallback. -/
def docName (d : PyDoc) : String :=
  d.filename.getD "unknown"

/-- A record stored in the vector index: id, raw chunk text, metadata. -/
structure StoredRecord where
  id : String
  text : List Char
  meta : ChunkMeta
deriving DecidableEq

/-- vectorize.py lines 67-76: the records built for one document from its
chunk list: the chunk at index i gets id filename ++ "_chunk_" ++ i and
metadata (filename, filepath, i, total number of chunks). -/
def chunkRecords (filename filepath : String) (chunks : List (List Char)) :
    List StoredRecord :=
  chunks.enum.map fun ic =>
    { id := filename ++ "_chunk_" ++ toString ic.1
      text := ic.2
      meta := { filename := filename
                filepath := filepath
                chunk_index := ic.1
                total_chunks := chunks.length } }

/-- vectorize.py lines 58-76: the records of one document, chunked with the
configured CHUNK_SIZE and CHUNK_OVERLAP (fuel-bounded). -/
def docRecords (d : PyDoc) (fuel : Nat) : Option (List StoredRecord) :=
  (chunk_text (docText d) CHUNK_SIZE CHUNK_OVERLAP fuel).map
    (chunkRecords (docName d) (d.filepath.getD ""))

/-- Modelled from the spec: the Vector Index collaborator (spec sections 2
and 3) stores records addressed by id with upsert semantics: writing a
record whose id is already present overwrites that entry in place, writing
a fresh id appends it.  The repository delegates this storage behavior to
ChromaDB, which is external to src. -/
def storeUpsert (store : List StoredRecord) (r : StoredRecord) : List StoredRecord :=
  if store.any fun x => x.id = r.id then
    store.map fun x => if x.id = r.id then r else x
  else
    store ++ [r]

/-- Writing a batch of records to the index in order; vectorize.py lines
78-89 submit the records in batches of 100, which under per-record upsert
is the same as writing them one by one in order. -/
def storeAdd (store : List StoredRecord) (recs : List StoredRecord) : List StoredRecord :=
  recs.foldl storeUpsert store

/-- vectorize.py add_documents lines 45-91 against the modelled index:
build the records of every document in order and write them to the store. -/
def add_documents (store : List StoredRecord) (docs : List PyDoc) (fuel : Nat) :
    Option (List StoredRecord) :=
  (docs.foldr (fun d acc => do
      let recs ← docRecords d fuel
      let rest ← acc
      pure (recs ++ rest))
    (some [])).map (storeAdd store)

/- Concrete inputs used by the claim instances below. -/

/-- A 2001-character document body with no whitespace and no sentence
boundaries: it chunks, at the configured size 1000 / overlap 200, into
exactly three chunks of lengths 1000, 1000 and 401. -/
def exContent : List Char := List.replicate 2001 'x'

/-- The document named report.pdf used for the deterministic-id claim. -/
def exDoc : PyDoc :=
  { cleaned_markdown := some exContent
    markdown := none
    content := none
    filename := some "report.pdf"
    filepath := some "docs/report.pdf" }

/-- The three chunks of exContent. -/
def exChunks : List (List Char) :=
  [List.replicate 1000 'x', List.replicate 1000 'x', List.replicate 401 'x']

/-- The records built for exDoc. -/
def exRecs : List StoredRecord :=
  chunkRecords "report.pdf" "docs/report.pdf" exChunks

/-- A 15-character text on which the chunk loop never terminates with
chunk_size 10 and overlap 5: eight letters, a sentence boundary, then five
letters. -/
def exLoopText : List Char :=
  ['a', 'a', 'a', 'a', 'a', 'a', 'a', 'a', '.', ' '] ++ List.replicate 5 'a'

/-- A 9-character text whose middle space character survives in no chunk
when chunked with chunk_size 5 and overlap 0. -/
def exGapText : List Char :=
  ['a', 'a', 'a', 'a', ' ', 'b', 'b', 'b', 'b']

/-- A 500-character input starting with a space, for the single-chunk
boundary case. -/
def exLen500 : List Char := ' ' :: List.replicate 499 'a'

/-- A 3-letter text chunked with chunk_size 1 and overlap 4 (an invalid
parameter relationship the code does not reject). -/
def exAbc : List Char := ['a', 'b', 'c']

/-- Dummy metadata for concrete query rows. -/
def exMeta : ChunkMeta :=
  { filename := "doc.pdf", filepath := "", chunk_index := 0, total_chunks := 1 }

/-- The five rows of the threshold-filter scenario: distances 0.2, 0.8,
1.5, 1.9, 0.05 in that order. -/
def exRows : List QueryRow :=
  [ { text := ['r', '0'], meta := exMeta, distance := 1/5 }
  , { text := ['r', '1'], meta := exMeta, distance := 4/5 }
  , { text := ['r', '2'], meta := exMeta, distance := 3/2 }
  , { text := ['r', '3'], meta := exMeta, distance := 19/10 }
  , { text := ['r', '4'], meta := exMeta, distance := 1/20 } ]

/-- The ten candidate rows of the keyword-filter scenario: only rows 2, 5
and 7 contain the keyword "kw" (lower case in the text, while the query
will pass it upper case). -/
def kwRow (i : Nat) : QueryRow :=
  { text := if i = 2 || i = 5 || i = 7 then ['k', 'w', Char.ofNat (48 + i)]
            else ['z', Char.ofNat (48 + i)]
    meta := exMeta
    distance := (i : ℚ) / 10 }

/-- The index collaborator of the keyword scenario: ten ranked rows, of
which the first requested k are returned. -/
def kwIndex (k : Nat) : List QueryRow :=
  ((List.range 10).map kwRow).take k

/- General lemmas about the embedded primitives. -/

/-- The forced-advance computation never moves the next start past end. -/
theorem nextStart_le (overlap e : Nat) : nextStart overlap e ≤ e := by
  unfold nextStart
  split <;> omega

/-- A successful rfind result, plus its length, stays within the search
window and the text. -/
theorem pyRfind_lt (text pat : List Char) (s e : Nat) (hpat : 1 ≤ pat.length) :
    pyRfind text pat s e < ((min e text.length : Nat) : Int) := by
  unfold pyRfind
  set good := (List.range (min e text.length + 1)).filter fun p =>
    decide (s ≤ p) && decide (p + pat.length ≤ min e text.length) &&
      pat.isPrefixOf (text.drop p) with hgood
  rcases hg : good.getLast? with - | p
  · have : (0 : Int) ≤ ((min e text.length : Nat) : Int) := Int.natCast_nonneg _
    simp only [hg]
    omega
  · have hp := List.mem_of_mem_getLast? hg
    rw [hgood, List.mem_filter] at hp
    obtain ⟨-, hpred⟩ := hp
    simp only [Bool.and_eq_true, decide_eq_true_eq] at hpred
    obtain ⟨⟨-, h2⟩, -⟩ := hpred
    simp only [hg]
    exact_mod_cast by omega

/-- The end of a chunk never exceeds start + chunk_size: the boundary
search only ever moves it earlier. -/
theorem chunkEnd_le (text : List Char) (cs s : Nat) :
    chunkEnd text cs s ≤ s + cs := by
  simp only [chunkEnd]
  split
  · next hlen =>
    have hmin : min (s + cs) text.length = s + cs := by omega
    have h1 := pyRfind_lt text ['.', ' '] s (s + cs) (by simp)
    have h2 := pyRfind_lt text ['!', ' '] s (s + cs) (by simp)
    have h3 := pyRfind_lt text ['?', ' '] s (s + cs) (by simp)
    have h4 := pyRfind_lt text [' '] s (s + cs) (by simp)
    rw [hmin] at h1 h2 h3 h4
    split
    · next hsent =>
      have : max (max (pyRfind text ['.', ' '] s (s + cs))
                      (pyRfind text ['!', ' '] s (s + cs)))
                 (pyRfind text ['?', ' '] s (s + cs)) < ((s + cs : Nat) : Int) := by
        simp only [max_lt_iff]
        exact ⟨⟨h1, h2⟩, h3⟩
      omega
    · split
      · next hsp => omega
      · exact Nat.le_refl _
  · exact Nat.le_refl _

/-- The slice text[s:e] has at most e - s characters. -/
theorem pySlice_length_le (text : List Char) (s e : Nat) :
    (pySlice text s e).length ≤ e - s := by
  simp only [pySlice, List.length_take, List.length_drop]
  omega

/-- dropWhile never lengthens a list. -/
theorem length_dropWhile_le (l : List Char) (p : Char → Bool) :
    (l.dropWhile p).length ≤ l.length := by
  induction l with
  | nil => simp [List.dropWhile]
  | cons a t ih =>
    by_cases h : p a
    · simpa [List.dropWhile, h] using Nat.le_succ_of_le ih
    · simp [List.dropWhile, h]

/-- Stripping never lengthens a list. -/
theorem pyStrip_length_le (l : List Char) : (pyStrip l).length ≤ l.length := by
  unfold pyStrip
  calc ((l.dropWhile isPySpace).reverse.dropWhile isPySpace).reverse.length
      = ((l.dropWhile isPySpace).reverse.dropWhile isPySpace).length := by
        simp
    _ ≤ (l.dropWhile isPySpace).reverse.length := length_dropWhile_le _ _
    _ = (l.dropWhile isPySpace).length := by simp
    _ ≤ l.length := length_dropWhile_le _ _

/-- An element that does not satisfy the predicate survives dropWhile. -/
theorem mem_dropWhile_of_not (l : List Char) (p : Char → Bool) (c : Char)
    (hc : c ∈ l) (hpc : p c = false) : c ∈ l.dropWhile p := by
  induction l with
  | nil => cases hc
  | cons a t ih =>
    by_cases h : p a
    · rcases List.mem_cons.1 hc with rfl | hct
      · rw [h] at hpc; cases hpc
      · simpa [List.dropWhile, h] using ih hct
    · simpa [List.dropWhile, h] using hc

/-- A non-whitespace character of a list survives stripping. -/
theorem mem_pyStrip (l : List Char) (c : Char) (hc : c ∈ l)
    (hsp : isPySpace c = false) : c ∈ pyStrip l := by
  unfold pyStrip
  rw [List.mem_reverse]
  apply mem_dropWhile_of_not _ _ _ _ hsp
  rw [List.mem_reverse]
  exact mem_dropWhile_of_not _ _ _ hc hsp

/-- The character at a position inside the window [s, e) occurs in the
slice text[s:e]. -/
theorem mem_pySlice (text : List Char) (s e p : Nat) (hsp : s ≤ p) (hpe : p < e)
    (hp : p < text.length) : text[p] ∈ pySlice text s e := by
  have hd : p - s < (text.drop s).length := by
    simp only [List.length_drop]
    omega
  have ht : p - s < (pySlice text s e).length := by
    simp only [pySlice, List.length_take, List.length_drop]
    omega
  have hval : (pySlice text s e)[p - s] = text[p] := by
    simp only [pySlice]
    rw [List.getElem_take, List.getElem_drop]
    congr 1
    omega
  rw [← hval]
  exact List.getElem_mem ht

/-- Loop invariant for the chunk-size bound: every chunk the loop ever
appends is a stripped slice of a window of at most chunk_size characters. -/
theorem chunkLoop_length_inv (text : List Char) (cs ov : Nat) :
    ∀ fuel start acc out, chunkLoop text cs ov fuel start acc = some out →
      (∀ c ∈ acc, c.length ≤ cs) → ∀ c ∈ out, c.length ≤ cs := by
  intro fuel
  induction fuel with
  | zero => intro start acc out h; cases h
  | succ f ih =>
    intro start acc out h hacc
    rw [chunkLoop] at h
    split at h
    · refine ih _ _ _ h ?_
      intro c hc
      rcases List.mem_append.1 hc with hc | hc
      · exact hacc c hc
      · rcases List.mem_singleton.1 hc with rfl
        calc (pyStrip (pySlice text start (chunkEnd text cs start))).length
            ≤ (pySlice text start (chunkEnd text cs start)).length :=
              pyStrip_length_le _
          _ ≤ chunkEnd text cs start - start := pySlice_length_le _ _ _
          _ ≤ cs := by have := chunkEnd_le text cs start; omega
    · obtain rfl : acc = out := Option.some.inj h
      exact hacc

/-- Loop invariant for coverage: every non-whitespace character at a
position from start onward ends up in some chunk of the final list. -/
theorem chunkLoop_covers (text : List Char) (cs ov : Nat) :
    ∀ fuel start acc out, chunkLoop text cs ov fuel start acc = some out →
      (∀ c ∈ acc, c ∈ out) ∧
      ∀ p, (hp : p < text.length) → start ≤ p → isPySpace text[p] = false →
        ∃ ch ∈ out, text[p] ∈ ch := by
  intro fuel
  induction fuel with
  | zero => intro start acc out h; cases h
  | succ f ih =>
    intro start acc out h
    rw [chunkLoop] at h
    split at h
    · next hstart =>
      obtain ⟨hsub, hcov⟩ := ih _ _ _ h
      have hchunk : pyStrip (pySlice text start (chunkEnd text cs start)) ∈ out :=
        hsub _ (List.mem_append.2 (Or.inr (List.mem_singleton.2 rfl)))
      refine ⟨fun c hc => hsub c (List.mem_append.2 (Or.inl hc)), ?_⟩
      intro p hp hsp hns
      by_cases hnext : nextStart ov (chunkEnd text cs start) ≤ p
      · exact hcov p hp hnext hns
      · refine ⟨_, hchunk, ?_⟩
        apply mem_pyStrip _ _ _ hns
        apply mem_pySlice text start _ p hsp _ hp
        have := nextStart_le ov (chunkEnd text cs start)
        omega
    · next hstart =>
      obtain rfl : acc = out := Option.some.inj h
      refine ⟨fun c hc => hc, ?_⟩
      intro p hp hsp _
      omega

/-- More fuel never changes a loop run that already finished. -/
theorem chunkLoop_mono (text : List Char) (cs ov : Nat) :
    ∀ f g start acc out, chunkLoop text cs ov f start acc = some out → f ≤ g →
      chunkLoop text cs ov g start acc = some out := by
  intro f
  induction f with
  | zero => intro g start acc out h; cases h
  | succ f ih =>
    intro g start acc out h hfg
    rcases g with - | g
    · omega
    rw [chunkLoop] at h
    rw [chunkLoop]
    split at h <;> rename_i hc
    · rw [if_pos hc]
      exact ih _ _ _ _ h (by omega)
    · rw [if_neg hc]
      exact h

/-- More fuel never changes a chunk_text run that already finished. -/
theorem chunk_text_mono (text : List Char) (cs ov : Nat) (f g : Nat)
    (out : List (List Char)) (h : chunk_text text cs ov f = some out)
    (hfg : f ≤ g) : chunk_text text cs ov g = some out := by
  unfold chunk_text at h ⊢
  split at h
  · next hlen => rw [if_pos hlen]; exact h
  · next hlen => rw [if_neg hlen]; exact chunkLoop_mono text cs ov f g 0 [] out h hfg

/-- On exLoopText with chunk_size 10 and overlap 5 the loop state start = 4
reproduces itself: the last sentence boundary in the window [4, 14) is at
position 8, so end becomes 9 and the overlap rewinds start to 4. -/
theorem chunkLoop_stuck :
    ∀ fuel acc, chunkLoop exLoopText 10 5 fuel 4 acc = none := by
  intro fuel
  induction fuel with
  | zero => intro acc; rfl
  | succ f ih =>
    intro acc
    rw [chunkLoop]
    rw [if_pos (by decide)]
    rw [show nextStart 5 (chunkEnd exLoopText 10 4) = 4 from by decide]
    exact ih _

/-- Claim C3: the chunk loop is claimed to terminate for every text once
0 <= overlap < chunk_size, within ceil(len/(chunk_size-overlap))+1 steps.
The code violates this: on the 15-character exLoopText with chunk_size 10
and overlap 5 the loop reaches start = 4 and stays there forever, so
chunk_text returns none for every fuel bound. -/
theorem C3_chunk_text_diverges :
    ∀ fuel, chunk_text exLoopText 10 5 fuel = none := by
  intro fuel
  unfold chunk_text
  rw [if_neg (by decide)]
  rcases fuel with - | f
  · rfl
  · rw [chunkLoop, if_pos (by decide),
        show nextStart 5 (chunkEnd exLoopText 10 0) = 4 from by decide]
    exact chunkLoop_stuck f _

/-- Claim C6 (amended): every non-whitespace character of the input lies
in at least one chunk whenever chunk_text terminates; whitespace characters
can be lost to the strip() at chunk boundaries. -/
theorem C6_nonspace_coverage :
    ∀ (text : List Char) (cs ov fuel : Nat) (out : List (List Char)),
      chunk_text text cs ov fuel = some out →
      ∀ p, (hp : p < text.length) → isPySpace text[p] = false →
        ∃ ch ∈ out, text[p] ∈ ch := by
  intro text cs ov fuel out h p hp hns
  unfold chunk_text at h
  split at h
  · obtain rfl : [text] = out := Option.some.inj h
    exact ⟨text, List.mem_singleton.2 rfl, List.getElem_mem hp⟩
  · exact (chunkLoop_covers text cs ov fuel 0 [] out h).2 p hp (Nat.zero_le p) hns

/-- Claim C6 witness: on a two-letter text the single chunk contains the
first letter. -/
theorem C6_nonspace_coverage_witness : ∃ ch ∈ [['a', 'b']], 'a' ∈ ch := by
  have h := C6_nonspace_coverage ['a', 'b'] 5 0 0 [['a', 'b']] rfl 0 (by decide)
    (by decide)
  exact h

/-- Claim C6 counterexample: chunking exGapText with chunk_size 5 and
overlap 0 yields chunks "aaaa" and "bbbb"; the space character of the
input lies in no returned chunk, so not every character of the input is
covered. -/
theorem C6_counterexample :
    chunk_text exGapText 5 0 3 = some [['a', 'a', 'a', 'a'], ['b', 'b', 'b', 'b']] ∧
    ' ' ∈ exGapText ∧
    ∀ ch ∈ [['a', 'a', 'a', 'a'], ['b', 'b', 'b', 'b']], ' ' ∉ ch := by
  decide

/-- dropWhile keeps a replicate of a non-matching character intact. -/
theorem dropWhile_replicate_of_neg (n : Nat) (c : Char) (h : isPySpace c = false) :
    (List.replicate n c).dropWhile isPySpace = List.replicate n c := by
  cases n with
  | zero => rfl
  | succ m => rw [List.replicate_succ, List.dropWhile_cons, h]; simp

/-- Stripping a replicate of a non-whitespace character is the identity. -/
theorem pyStrip_replicate (n : Nat) (c : Char) (h : isPySpace c = false) :
    pyStrip (List.replicate n c) = List.replicate n c := by
  unfold pyStrip
  rw [dropWhile_replicate_of_neg n c h, List.reverse_replicate,
      dropWhile_replicate_of_neg n c h, List.reverse_replicate]

/-- The concrete 500-character input has length 500. -/
theorem exLen500_length : exLen500.length = 500 := by
  rw [exLen500, List.length_cons, List.length_replicate]

/-- Claim C7 (amended): with chunk_size 1000 and overlap 200, any input of
length 500 comes back as exactly one chunk equal to the input unchanged
(the single-chunk branch does not strip). -/
theorem C7_single_chunk :
    ∀ (text : List Char) (fuel : Nat), text.length = 500 →
      chunk_text text 1000 200 fuel = some [text] := by
  intro text fuel h
  unfold chunk_text
  rw [if_pos (by omega)]

/-- Claim C7 witness: the concrete 500-character input exLen500. -/
theorem C7_single_chunk_witness : chunk_text exLen500 1000 200 7 = some [exLen500] :=
  C7_single_chunk exLen500 7 exLen500_length

/-- Claim C7 counterexample: chunk_text returns the length-500 input
exLen500 unchanged, and exLen500 is not equal to its stripped form, so the
returned chunk is not the stripped input the claim demands. -/
theorem C7_counterexample :
    chunk_text exLen500 1000 200 0 = some [exLen500] ∧
    pyStrip exLen500 ≠ exLen500 := by
  constructor
  · unfold chunk_text
    rw [if_pos (by rw [exLen500_length]; omega)]
  · have hstrip : pyStrip exLen500 = List.replicate 499 'a' := by
      unfold exLen500 pyStrip
      rw [List.dropWhile_cons]
      rw [show isPySpace ' ' = true from rfl]
      simp only [if_pos]
      rw [dropWhile_replicate_of_neg 499 'a' (by decide), List.reverse_replicate,
          dropWhile_replicate_of_neg 499 'a' (by decide), List.reverse_replicate]
    rw [hstrip]
    intro h
    have h2 := congrArg List.length h
    rw [List.length_replicate, exLen500_length] at h2
    omega

/-- Claim C8 (amended): the code performs no validation of the
overlap/chunk_size relationship: a call with overlap 4 >= chunk_size 1
is not rejected; the loop runs with the forced-advance fallback and
returns the chunks "a", "b", "c" of exAbc, for every sufficient fuel. -/
theorem C8_no_validation :
    ∀ fuel, 4 ≤ fuel → chunk_text exAbc 1 4 fuel = some [['a'], ['b'], ['c']] := by
  intro fuel h
  exact chunk_text_mono exAbc 1 4 4 fuel _ (by decide) h

/-- Claim C8 witness: fuel 9 suffices. -/
theorem C8_no_validation_witness : chunk_text exAbc 1 4 9 = some [['a'], ['b'], ['c']] :=
  C8_no_validation 9 (by norm_num)

/-- Claim C8 counterexample: with overlap 4 >= chunk_size 1, chunking does
not fail fast before producing chunks: it returns a chunk list. -/
theorem C8_counterexample : chunk_text exAbc 1 4 4 = some [['a'], ['b'], ['c']] := by
  decide

/-- Claim C9: every string returned by chunk_text has length at most
chunk_size, for every text, chunk_size >= 1, overlap and fuel on which the
function returns. -/
theorem C9_chunk_length_bound :
    ∀ (text : List Char) (cs ov fuel : Nat) (out : List (List Char)), 1 ≤ cs →
      chunk_text text cs ov fuel = some out → ∀ c ∈ out, c.length ≤ cs := by
  intro text cs ov fuel out hcs h c hc
  unfold chunk_text at h
  split at h
  · next hlen =>
    obtain rfl : [text] = out := Option.some.inj h
    rcases List.mem_singleton.1 hc with rfl
    exact hlen
  · exact chunkLoop_length_inv text cs ov fuel 0 [] out h (by simp) c hc

/-- Claim C9 witness: the chunks of exGapText at chunk_size 5 have length
at most 5. -/
theorem C9_chunk_length_bound_witness : (['a', 'a', 'a', 'a'] : List Char).length ≤ 5 :=
  C9_chunk_length_bound exGapText 5 0 3 [['a', 'a', 'a', 'a'], ['b', 'b', 'b', 'b']]
    (by norm_num) (by decide) ['a', 'a', 'a', 'a'] (by decide)

/-- Claim C1: both consumers compute similarity as max(0, 100*(1 - d/2)):
the CLI and the web UI agree, distance 0 gives 100, distance 1 gives 50,
distance 2 gives 0, anything above 2 clamps to 0, and the score is never
negative. -/
theorem C1_similarity_formula :
    (∀ d : ℚ, cliSimilarity d = appSimilarity d) ∧
    (∀ d : ℚ, cliSimilarity d = max 0 (100 * (1 - d / 2))) ∧
    cliSimilarity 0 = 100 ∧ cliSimilarity 1 = 50 ∧ cliSimilarity 2 = 0 ∧
    (∀ d : ℚ, 2 < d → cliSimilarity d = 0) ∧
    (∀ d : ℚ, 0 ≤ cliSimilarity d) := by
  refine ⟨fun d => rfl, fun d => rfl, ?_, ?_, ?_, ?_, fun d => le_max_left 0 _⟩
  · unfold cliSimilarity; norm_num
  · unfold cliSimilarity
    rw [max_eq_right (by norm_num)]
    norm_num
  · unfold cliSimilarity; norm_num
  · intro d hd
    unfold cliSimilarity
    rw [max_eq_left (by linarith)]

/-- Claim C1 witness: a distance of 3 clamps to similarity 0. -/
theorem C1_similarity_formula_witness : cliSimilarity 3 = 0 :=
  C1_similarity_formula.2.2.2.2.2.1 3 (by norm_num)

/-- The two consumers' similarity computations are literally the same
expression. -/
theorem appSimilarity_eq (d : ℚ) : appSimilarity d = cliSimilarity d := rfl

/-- Similarity of distance 0.2. -/
theorem cliSim_d0 : cliSimilarity (1/5) = 90 := by
  unfold cliSimilarity
  rw [show (100 : ℚ) * (1 - 1/5/2) = 90 from by norm_num]
  exact max_eq_right (by norm_num)

/-- Similarity of distance 0.8. -/
theorem cliSim_d1 : cliSimilarity (4/5) = 60 := by
  unfold cliSimilarity
  rw [show (100 : ℚ) * (1 - 4/5/2) = 60 from by norm_num]
  exact max_eq_right (by norm_num)

/-- Similarity of distance 1.5. -/
theorem cliSim_d2 : cliSimilarity (3/2) = 25 := by
  unfold cliSimilarity
  rw [show (100 : ℚ) * (1 - 3/2/2) = 25 from by norm_num]
  exact max_eq_right (by norm_num)

/-- Similarity of distance 1.9. -/
theorem cliSim_d3 : cliSimilarity (19/10) = 5 := by
  unfold cliSimilarity
  rw [show (100 : ℚ) * (1 - 19/10/2) = 5 from by norm_num]
  exact max_eq_right (by norm_num)

/-- Similarity of distance 0.05. -/
theorem cliSim_d4 : cliSimilarity (1/20) = 195/2 := by
  unfold cliSimilarity
  rw [show (100 : ℚ) * (1 - 1/20/2) = 195/2 from by norm_num]
  exact max_eq_right (by norm_num)

/-- The CLI threshold filter on the scenario rows with threshold 60 keeps
rows 0, 1 and 4, in input order. -/
theorem display_results_filter_exRows :
    display_results_filter exRows 60 =
      [(['r', '0'], exMeta, 90), (['r', '1'], exMeta, 60), (['r', '4'], exMeta, 195/2)] := by
  unfold exRows
  simp only [display_results_filter]
  rw [cliSim_d0, cliSim_d1, cliSim_d2, cliSim_d3, cliSim_d4]
  rw [if_pos (by norm_num : (60 : ℚ) ≤ 90), if_pos (by norm_num : (60 : ℚ) ≤ 60),
      if_neg (by norm_num : ¬(60 : ℚ) ≤ 25), if_neg (by norm_num : ¬(60 : ℚ) ≤ 5),
      if_pos (by norm_num : (60 : ℚ) ≤ 195/2)]

/-- Claim C5 (amended): the threshold filter keeps exactly the rows whose
similarity is at least min_similarity, in the original input order (it
does not re-sort by distance); the web-UI filter keeps the same rows as
the CLI filter; on the scenario rows with distances 0.2, 0.8, 1.5, 1.9,
0.05 and threshold 60 the similarities are 90, 60, 25, 5, 97.5 and the
kept rows are indices 0, 1, 4, returned in that input order. -/
theorem C5_threshold_filter :
    (∀ (rows : List QueryRow) (m : ℚ), display_results_filter rows m =
       (rows.map fun r => (r.text, r.meta, cliSimilarity r.distance)).filter
         fun t => m ≤ t.2.2) ∧
    (∀ (rows : List QueryRow) (m : ℚ), query_rag_filter rows m =
       ((display_results_filter rows m).map (fun t => t.1),
        (display_results_filter rows m).map (fun t => t.2.1),
        (display_results_filter rows m).map (fun t => t.2.2))) ∧
    exRows.map (fun r => cliSimilarity r.distance) = [90, 60, 25, 5, 195/2] ∧
    display_results_filter exRows 60 =
      [(['r', '0'], exMeta, 90), (['r', '1'], exMeta, 60), (['r', '4'], exMeta, 195/2)] := by
  refine ⟨?_, ?_, ?_, display_results_filter_exRows⟩
  · intro rows m
    induction rows with
    | nil => rfl
    | cons r rest ih =>
      by_cases h : m ≤ cliSimilarity r.distance
      · simp [display_results_filter, List.filter_cons, h, ih]
      · simp [display_results_filter, List.filter_cons, h, ih]
  · intro rows m
    induction rows with
    | nil => rfl
    | cons r rest ih =>
      by_cases h : m ≤ cliSimilarity r.distance
      · simp only [query_rag_filter, display_results_filter, ih, appSimilarity_eq]
        rw [if_pos h, if_pos h]
        simp
      · simp only [query_rag_filter, display_results_filter, ih, appSimilarity_eq]
        rw [if_neg h, if_neg h]
  · unfold exRows
    simp only [List.map_cons, List.map_nil]
    rw [cliSim_d0, cliSim_d1, cliSim_d2, cliSim_d3, cliSim_d4]

/-- Claim C5 counterexample: on the scenario the kept rows come out in
input order (index 0, 1, 4), not re-sorted by ascending distance (index 4,
0, 1) as the claim states. -/
theorem C5_counterexample :
    display_results_filter exRows 60 ≠
      [(['r', '4'], exMeta, 195/2), (['r', '0'], exMeta, 90), (['r', '1'], exMeta, 60)] := by
  rw [display_results_filter_exRows]
  intro h
  have h2 := congrArg (fun l => (l.map fun t => t.1).head?) h
  simp only [List.map_cons, List.head?] at h2
  have h3 : (['r', '0'] : List Char) = ['r', '4'] := Option.some.inj h2
  exact (by decide : (['r', '0'] : List Char) ≠ ['r', '4']) h3

/-- The keyword loop, started from an accumulator shorter than n_results,
computes the first remaining matches: it equals filter-then-take. -/
theorem kwFilterLoop_eq (kwL : List Char) (n : Nat) :
    ∀ (l acc : List QueryRow), acc.length < n →
      kwFilterLoop kwL n acc l =
        (acc ++ l.filter fun r => containsSub (lowerChars r.text) kwL).take n := by
  intro l
  induction l with
  | nil =>
    intro acc hacc
    simp only [kwFilterLoop, List.filter_nil, List.append_nil]
    rw [List.take_of_length_le (Nat.le_of_lt hacc)]
  | cons r rest ih =>
    intro acc hacc
    by_cases hmatch : containsSub (lowerChars r.text) kwL
    · by_cases hfull : n ≤ acc.length + 1
      · have hn : n = acc.length + 1 := by omega
        simp only [kwFilterLoop, hmatch, if_true, if_pos hfull, List.filter_cons, hmatch]
        rw [hn, show acc.length + 1 = acc.length + 1 from rfl]
        rw [List.take_append]
        simp
      · have h1 : (acc ++ [r]).length < n := by simp; omega
        simp only [kwFilterLoop, hmatch, if_true, if_neg hfull, List.filter_cons, hmatch]
        rw [ih (acc ++ [r]) h1]
        simp
    · simp only [kwFilterLoop, hmatch, List.filter_cons]
      rw [if_neg (by simp [hmatch]), ih acc hacc]
      simp [hmatch]

/-- Claim C4: with a truthy keyword the engine requests n_results * 3
candidates (n_results when unset) and returns the first n_results
candidates, in original rank order, whose lowercased text contains the
lowercased keyword: exactly filter-then-take, never reordered or padded. -/
theorem C4_keyword_filter :
    ∀ (index : Nat → List QueryRow) (n : Nat) (k : List Char), k ≠ [] → 1 ≤ n →
      requestedCandidates n (some k) = n * 3 ∧
      requestedCandidates n none = n ∧
      VectorDB_query index n (some k) =
        ((index (n * 3)).filter fun r =>
          containsSub (lowerChars r.text) (lowerChars k)).take n := by
  intro index n k hk hn
  have htruthy : truthyKw (some k) = true := by
    simp [truthyKw, List.isEmpty_iff, hk]
  have hreq : requestedCandidates n (some k) = n * 3 := by
    simp [requestedCandidates, htruthy]
  refine ⟨hreq, by simp [requestedCandidates, truthyKw], ?_⟩
  unfold VectorDB_query
  rw [hreq]
  by_cases hres : index (n * 3) = []
  · rw [hres]
    simp
  · rw [if_pos (by simp [htruthy, List.isEmpty_iff, hres])]
    dsimp only
    rw [kwFilterLoop_eq (lowerChars k) n (index (n * 3)) [] (by simpa using hn)]
    simp

/-- Claim C4 witness: the ten-candidate scenario: rows 2, 5 and 7 contain
the keyword (matched case-insensitively), n_results = 5, and exactly those
three rows come back in rank order. -/
theorem C4_keyword_filter_witness :
    VectorDB_query kwIndex 5 (some ['K', 'W']) = [kwRow 2, kwRow 5, kwRow 7] := by
  have h := (C4_keyword_filter kwIndex 5 ['K', 'W'] (by decide) (by norm_num)).2.2
  rw [h]
  rfl

/-- Claim C10: an empty-string keyword_filter behaves exactly like no
filter (same requested count, same result), and a truthy keyword against
an empty candidate list skips filtering and returns the empty result. -/
theorem C10_empty_keyword :
    (∀ (index : Nat → List QueryRow) (n : Nat),
       VectorDB_query index n (some []) = VectorDB_query index n none ∧
       requestedCandidates n (some []) = requestedCandidates n none) ∧
    ∀ (index : Nat → List QueryRow) (n : Nat) (k : List Char), k ≠ [] →
      index (n * 3) = [] → VectorDB_query index n (some k) = [] := by
  constructor
  · intro index n
    exact ⟨rfl, rfl⟩
  · intro index n k hk hres
    unfold VectorDB_query
    rw [show requestedCandidates n (some k) = n * 3 from by
      simp [requestedCandidates, truthyKw, List.isEmpty_iff, hk]]
    rw [hres]
    simp

/-- Claim C10 witness: a non-empty keyword against an index with no
candidates returns the empty list. -/
theorem C10_empty_keyword_witness :
    VectorDB_query (fun _ => []) 5 (some ['a']) = [] :=
  C10_empty_keyword.2 (fun _ => []) 5 ['a'] (by decide) rfl

/-- rfind of a pattern whose first character never occurs in the text
finds nothing. -/
theorem pyRfind_eq_neg_one (text pat : List Char) (s e : Nat) (c : Char)
    (cs : List Char) (hpat : pat = c :: cs) (hc : c ∉ text) :
    pyRfind text pat s e = -1 := by
  simp only [pyRfind]
  have hfil : (List.range (min e text.length + 1)).filter (fun p =>
      decide (s ≤ p) && decide (p + pat.length ≤ min e text.length) &&
        pat.isPrefixOf (text.drop p)) = [] := by
    apply List.filter_eq_nil_iff.2
    intro p hp h
    rw [Bool.and_eq_true, Bool.and_eq_true] at h
    obtain ⟨-, hpre⟩ := h
    rw [hpat, List.isPrefixOf_iff_prefix] at hpre
    exact hc ((List.drop_suffix p text).subset (hpre.subset (List.mem_cons_self c cs)))
  rw [hfil]
  rfl

/-- No character other than the repeated one occurs in exContent. -/
theorem exContent_not_mem (c : Char) (hc : c ≠ 'x') : c ∉ exContent := by
  intro hmem
  exact hc (List.eq_of_mem_replicate hmem)

/-- On the boundary-free exContent, the chunk end is always the full
window start + 1000 while the window stays inside the text. -/
theorem chunkEnd_exContent (s : Nat) (hs : s + 1000 < 2001) :
    chunkEnd exContent 1000 s = s + 1000 := by
  simp only [chunkEnd]
  rw [pyRfind_eq_neg_one exContent ['.', ' '] s (s + 1000) '.' [' '] rfl
        (exContent_not_mem '.' (by decide)),
      pyRfind_eq_neg_one exContent ['!', ' '] s (s + 1000) '!' [' '] rfl
        (exContent_not_mem '!' (by decide)),
      pyRfind_eq_neg_one exContent ['?', ' '] s (s + 1000) '?' [' '] rfl
        (exContent_not_mem '?' (by decide)),
      pyRfind_eq_neg_one exContent [' '] s (s + 1000) ' ' [] rfl
        (exContent_not_mem ' ' (by decide))]
  rw [if_pos (show s + 1000 < exContent.length by
        simp only [exContent, List.length_replicate]; omega)]
  rw [if_neg (show ¬(s : Int) < max (max (-1) (-1)) (-1) by
        rw [max_self, max_self]; omega)]
  rw [if_neg (show ¬(s : Int) < -1 by omega)]

/-- Past-the-end windows keep the raw end start + 1000. -/
theorem chunkEnd_exContent_last : chunkEnd exContent 1000 1600 = 2600 := by
  simp only [chunkEnd]
  rw [if_neg (show ¬1600 + 1000 < exContent.length by
        simp only [exContent, List.length_replicate]; omega)]

/-- The slice of a replicate is a replicate of the window length. -/
theorem pySlice_replicate (n : Nat) (c : Char) (s e : Nat) :
    pySlice (List.replicate n c) s e = List.replicate (min (e - s) (n - s)) c := by
  simp [pySlice, List.drop_replicate, List.take_replicate]

/-- exContent chunks into exactly the three chunks of exChunks with the
configured size 1000 and overlap 200, in four loop steps. -/
theorem chunk_text_exContent : chunk_text exContent 1000 200 4 = some exChunks := by
  unfold chunk_text
  rw [if_neg (show ¬exContent.length ≤ 1000 by
        simp only [exContent, List.length_replicate]; omega)]
  rw [chunkLoop, if_pos (show 0 < exContent.length by
        simp only [exContent, List.length_replicate]; omega)]
  rw [chunkEnd_exContent 0 (by omega)]
  rw [show nextStart 200 (0 + 1000) = 800 from by norm_num [nextStart]]
  rw [show pyStrip (pySlice exContent 0 (0 + 1000)) = List.replicate 1000 'x' from by
        rw [exContent, pySlice_replicate]
        norm_num
        exact pyStrip_replicate 1000 'x' (by decide)]
  rw [chunkLoop, if_pos (show 800 < exContent.length by
        simp only [exContent, List.length_replicate]; omega)]
  rw [chunkEnd_exContent 800 (by omega)]
  rw [show nextStart 200 (800 + 1000) = 1600 from by norm_num [nextStart]]
  rw [show pyStrip (pySlice exContent 800 (800 + 1000)) = List.replicate 1000 'x' from by
        rw [exContent, pySlice_replicate]
        norm_num
        exact pyStrip_replicate 1000 'x' (by decide)]
  rw [chunkLoop, if_pos (show 1600 < exContent.length by
        simp only [exContent, List.length_replicate]; omega)]
  rw [chunkEnd_exContent_last]
  rw [show nextStart 200 2600 = 2400 from by norm_num [nextStart]]
  rw [show pyStrip (pySlice exContent 1600 2600) = List.replicate 401 'x' from by
        rw [exContent, pySlice_replicate]
        norm_num
        exact pyStrip_replicate 401 'x' (by decide)]
  rw [chunkLoop, if_neg (show ¬2400 < exContent.length by
        simp only [exContent, List.length_replicate]; omega)]
  rfl

/-- The records of exDoc, with their ids spelled out. -/
theorem exRecs_eq :
    exRecs =
      [ { id := "report.pdf_chunk_0", text := List.replicate 1000 'x',
          meta := { filename := "report.pdf", filepath := "docs/report.pdf",
                    chunk_index := 0, total_chunks := 3 } },
        { id := "report.pdf_chunk_1", text := List.replicate 1000 'x',
          meta := { filename := "report.pdf", filepath := "docs/report.pdf",
                    chunk_index := 1, total_chunks := 3 } },
        { id := "report.pdf_chunk_2", text := List.replicate 401 'x',
          meta := { filename := "report.pdf", filepath := "docs/report.pdf",
                    chunk_index := 2, total_chunks := 3 } } ] := rfl

/-- Claim C2: the chunk at index i of a document is stored under the
deterministic id filename ++ "_chunk_" ++ i; the document report.pdf with
its three chunks yields ids report.pdf_chunk_0/1/2; and re-ingesting the
identical content produces the identical records, which overwrite the
previous entries under the modelled upsert store: ingesting twice leaves
exactly the same three records as ingesting once, with no duplicates and
no error. -/
theorem C2_deterministic_ids :
    (∀ (fname fp : String) (chunks : List (List Char)) (i : Nat),
       i < chunks.length →
       ((chunkRecords fname fp chunks).map fun r => r.id)[i]? =
         some (fname ++ "_chunk_" ++ toString i)) ∧
    ((docRecords exDoc 4).map fun recs => recs.map fun r => r.id) =
      some ["report.pdf_chunk_0", "report.pdf_chunk_1", "report.pdf_chunk_2"] ∧
    storeAdd (storeAdd [] exRecs) exRecs = storeAdd [] exRecs ∧
    (storeAdd [] exRecs).length = 3 := by
  have hdoc : docRecords exDoc 4 = some exRecs := by
    unfold docRecords
    rw [show docText exDoc = exContent from rfl,
        show CHUNK_SIZE = 1000 from rfl, show CHUNK_OVERLAP = 200 from rfl]
    rw [chunk_text_exContent]
    rfl
  refine ⟨?_, ?_, ?_, ?_⟩
  · intro fname fp chunks i hi
    unfold chunkRecords
    rw [List.map_map, List.getElem?_map, List.getElem?_enum]
    rw [show chunks[i]? = some (chunks.get ⟨i, hi⟩) from List.getElem?_eq_getElem hi]
    rfl
  · rw [hdoc, exRecs_eq]
    rfl
  · rw [exRecs_eq]
    rfl
  · rw [exRecs_eq]
    rfl

/-- Claim C2 witness: the id of chunk 1 of the report.pdf records. -/
theorem C2_deterministic_ids_witness :
    ((chunkRecords "report.pdf" "docs/report.pdf" exChunks).map fun r => r.id)[1]? =
      some ("report.pdf" ++ "_chunk_" ++ toString 1) :=
  C2_deterministic_ids.1 "report.pdf" "docs/report.pdf" exChunks 1
    (by rw [show exChunks.length = 3 from rfl]; omega)

